import Mathlib

/-!
Verification of the tme-tax-backend RAG chat service.

Shallow embedding of the repository's core operations:
* the upload-path chunker and vector ingestion (`src/fileProcessor.mjs`,
  `createDocumentEmbeddings`, `searchDocumentChunks`),
* the offline bulk-ingestion chunker and duplicate detection
  (`processDocuments.cjs`: `splitIntoChunks`, `processDocument`),
* the conversation store (`src/db.mjs`: `getConversationMessages`),
* the streaming chat handler and the upload handler (`src/server.mjs`).

Text is modelled as `List Char` (one element per JavaScript string unit);
byte buffers as `List Nat`; fallible external calls as `Except String`.
-/

namespace TmeTax

/-- JavaScript whitespace class (the characters matched by `\s` and removed
by `String.prototype.trim`), restricted to the code points that occur in
practice: ASCII whitespace, NBSP, BOM and the line/paragraph separators. -/
def jsWhitespace (c : Char) : Bool :=
  c = ' ' || c = '\t' || c = '\n' || c = '\r' || c = '\x0b' || c = '\x0c' ||
  c = '\u00A0' || c = '\uFEFF' || c = '\u2028' || c = '\u2029'

/-- JavaScript `String.prototype.trim`: remove leading and trailing
whitespace. -/
def jsTrim (l : List Char) : List Char :=
  ((l.dropWhile jsWhitespace).reverse.dropWhile jsWhitespace).reverse

/-- JavaScript `text.slice(s, e)` for `0 ≤ s`: the characters at positions
`s, …, e-1`, clamped to the length of the string. -/
def jsSlice (text : List Char) (s e : Nat) : List Char :=
  (text.drop s).take (e - s)

/-- JavaScript `text.indexOf(c, fromIdx)` (with a non-negative start):
position of the first occurrence of `c` at index `≥ fromIdx`, if any. -/
def jsIndexOfFrom (text : List Char) (c : Char) (fromIdx : Nat) : Option Nat :=
  match (text.drop fromIdx).findIdx? (fun d => d = c) with
  | some i => some (fromIdx + i)
  | none => none

/-- Upload-path chunk size used by `createDocumentEmbeddings`
(`src/fileProcessor.mjs` line 228): `const chunkSize = 8000`. -/
def uploadChunkSize : Nat := 8000

/-- Loop body of the upload-path chunker, fuel-indexed so that it is
structurally recursive (`text.length` iterations always suffice since each
iteration consumes at least one character). -/
def uploadChunksGo : Nat → List Char → List (List Char)
  | 0, _ => []
  | _, [] => []
  | fuel + 1, c :: cs =>
      (c :: cs).take uploadChunkSize :: uploadChunksGo fuel ((c :: cs).drop uploadChunkSize)

/-- The upload-path chunker of `createDocumentEmbeddings`
(`src/fileProcessor.mjs` lines 228–233):
`for (let i = 0; i < text.length; i += chunkSize) chunks.push(text.substring(i, i + chunkSize))`.
Contiguous non-overlapping 8000-character slices. -/
def uploadChunks (text : List Char) : List (List Char) :=
  uploadChunksGo text.length text

/-- Sentence-boundary snap of the offline chunker (`processDocuments.cjs`
`splitIntoChunks` lines 166–174): the provisional cut `startIndex + maxChunkSize`
moves to just past the next period found at index `≥ endIndex - 50`, provided
that period lies before `endIndex + 50`; no snap on the final slice. -/
def snapEnd (text : List Char) (maxChunkSize startIndex : Nat) : Nat :=
  if startIndex + maxChunkSize < text.length then
    match jsIndexOfFrom text '.' (startIndex + maxChunkSize - 50) with
    | some p => if p < startIndex + maxChunkSize + 50 then p + 1 else startIndex + maxChunkSize
    | none => startIndex + maxChunkSize
  else startIndex + maxChunkSize

/-- Loop of `splitIntoChunks` producing the raw (untrimmed) slices, indexed
by fuel: each iteration pushes `text.slice(startIndex, endIndex)` and sets
`startIndex = endIndex - overlap`.  With the configured parameters the loop
terminates, which is proved below as fuel-insensitivity (claim C9). -/
def splitSlices (text : List Char) (maxChunkSize overlap : Nat) : Nat → Nat → List (List Char)
  | 0, _ => []
  | fuel + 1, startIndex =>
      if startIndex < text.length then
        jsSlice text startIndex (snapEnd text maxChunkSize startIndex) ::
          splitSlices text maxChunkSize overlap fuel
            (snapEnd text maxChunkSize startIndex - overlap)
      else []

/-- Offline chunker `splitIntoChunks(text, maxChunkSize, overlap)` of
`processDocuments.cjs` (lines 160–181): pushes `text.slice(startIndex, endIndex).trim()`
each iteration and finally filters out empty chunks.  Since trimming does not
affect the loop indices, it is factored as a map over the raw slices. -/
def splitIntoChunks (text : List Char) (maxChunkSize overlap : Nat) : List (List Char) :=
  ((splitSlices text maxChunkSize overlap (text.length + 1) 0).map jsTrim).filter
    (fun c => !c.isEmpty)

/-- Keep only characters in `\x20`–`\x7E` or whitespace: the effect of
`replace(/[^\x20-\x7E\s]/g, '')` in `parsePDF` (`processDocuments.cjs`). -/
def keepPrintable (l : List Char) : List Char :=
  l.filter (fun c => (0x20 ≤ c.toNat && c.toNat ≤ 0x7E) || jsWhitespace c)

/-- Loop of whitespace-run collapsing, fuel-indexed (`text.length` iterations
suffice since each iteration consumes at least one character). -/
def collapseWsGo : Nat → List Char → List Char
  | 0, _ => []
  | _, [] => []
  | fuel + 1, c :: cs =>
      if jsWhitespace c then ' ' :: collapseWsGo fuel (cs.dropWhile jsWhitespace)
      else c :: collapseWsGo fuel cs

/-- JavaScript `replace(/\s+/g, ' ')`: collapse every maximal whitespace run
to a single space. -/
def collapseWs (l : List Char) : List Char :=
  collapseWsGo l.length l

/-- Text normalisation applied by `parsePDF` on the offline ingestion path
(`processDocuments.cjs` lines 118–121):
`data.text.replace(/\s+/g, ' ').replace(/[^\x20-\x7E\s]/g, '').trim()`. -/
def normalizeText (l : List Char) : List Char :=
  jsTrim (keepPrintable (collapseWs l))

/-- Modelled from the spec: "concatenating all chunk texts (in chunk-index
order) …, after removing chunking-introduced overlap" — the first chunk is
kept whole and every later chunk drops its first `overlap` characters (the
chunking loop restarts each slice exactly `overlap` characters before the
previous cut). -/
def removeOverlap (overlap : Nat) : List (List Char) → List Char
  | [] => []
  | c :: rest => c ++ (rest.map (fun d => d.drop overlap)).flatten

/-! ## Vector store model (Pinecone) -/

/-- Metadata attached to every document-chunk vector by
`createDocumentEmbeddings` (`src/fileProcessor.mjs` lines 254–262).  General
knowledge-base vectors carry no `conversationId` (`conversationId = none`). -/
structure ChunkMetadata where
  conversationId : Option String
  fileName : String
  fileType : String
  chunkIndex : Nat
  totalChunks : Nat
  text : List Char
  deriving Repr, DecidableEq

/-- A record of the external vector index: id, embedding values, and
metadata. -/
structure PineconeVector where
  id : String
  values : List Int
  metadata : ChunkMetadata
  deriving Repr, DecidableEq

/-- Pinecone `index.upsert(vectors)`: records whose id matches an incoming
vector are overwritten; the rest are kept and the new vectors stored. -/
def pineconeUpsert (store newVectors : List PineconeVector) : List PineconeVector :=
  store.filter (fun v => newVectors.all (fun w => w.id != v.id)) ++ newVectors

/-- Pinecone `index.query({vector, topK, filter})`: among the stored vectors
whose metadata satisfies the filter, return the `topK` best-scoring ones.
The similarity scoring function is abstract (`score`). -/
def pineconeQuery (score : List Int → List Int → Int) (store : List PineconeVector)
    (queryVec : List Int) (topK : Nat) (filter : ChunkMetadata → Bool) :
    List PineconeVector :=
  ((store.filter (fun v => filter v.metadata)).insertionSort
    (fun v w => score queryVec w.values ≤ score queryVec v.values)).take topK

/-- The vectors built by `createDocumentEmbeddings` (`src/fileProcessor.mjs`
lines 237–264): one per upload-path chunk, id
`conversation_${conversationId}_${originalName}_chunk_${i}_${Date.now()}`,
metadata carrying the requesting conversation's identifier.  The embedding
provider is abstract (`embed`); `now` stands for `Date.now()`. -/
def chunkVectors (embed : List Char → List Int) (text : List Char)
    (originalName fileType conversationId : String) (now : Nat) :
    List PineconeVector :=
  let chunks := uploadChunks text
  chunks.enum.map (fun ic =>
    { id := "conversation_" ++ conversationId ++ "_" ++ originalName ++ "_chunk_" ++
        toString ic.1 ++ "_" ++ toString now
      values := embed ic.2
      metadata :=
        { conversationId := some conversationId
          fileName := originalName
          fileType := fileType
          chunkIndex := ic.1
          totalChunks := chunks.length
          text := ic.2 } })

/-- Result value of `createDocumentEmbeddings`. -/
structure EmbedResult where
  chunksCreated : Nat
  vectorIds : List String
  deriving Repr, DecidableEq

/-- `createDocumentEmbeddings(processedData, conversationId)`
(`src/fileProcessor.mjs` lines 214–289): fails if either API client is not
initialised; otherwise chunks the extracted text, embeds each chunk, builds
one tagged vector per chunk, upserts them (only when at least one vector
exists) and reports the chunk count and vector ids.  Returns the updated
store together with the result. -/
def createDocumentEmbeddings (openaiReady pineconeReady : Bool)
    (embed : List Char → List Int) (text : List Char)
    (originalName fileType conversationId : String) (now : Nat)
    (store : List PineconeVector) :
    Except String (List PineconeVector × EmbedResult) :=
  if !openaiReady then
    .error "OpenAI client is not initialized. Please check your OPENAI_API_KEY in the .env file."
  else if !pineconeReady then
    .error "Pinecone client is not initialized. Please check your PINECONE_API_KEY and PINECONE_INDEX in the .env file."
  else
    let vectors := chunkVectors embed text originalName fileType conversationId now
    let store' := if vectors.length > 0 then pineconeUpsert store vectors else store
    .ok (store', { chunksCreated := vectors.length, vectorIds := vectors.map (fun v => v.id) })

/-- The matches selected by `searchDocumentChunks(query, conversationId, topK)`
(`src/fileProcessor.mjs` lines 294–340) before the final projection: the
query text is embedded and the index is queried with the filter
`conversationId: { $eq: conversationId }`. -/
def searchMatches (embed : List Char → List Int) (score : List Int → List Int → Int)
    (store : List PineconeVector) (query : List Char) (conversationId : String)
    (topK : Nat) : List PineconeVector :=
  pineconeQuery score store (embed query) topK
    (fun md => md.conversationId == some conversationId)

/-- Projected match returned by `searchDocumentChunks`. -/
structure DocMatch where
  score : Int
  fileName : String
  fileType : String
  text : List Char
  chunkIndex : Nat
  deriving Repr, DecidableEq

/-- `searchDocumentChunks` (`src/fileProcessor.mjs` lines 294–340): query the
index scoped to the conversation and project each match to
`{score, fileName, fileType, text, chunkIndex}`. -/
def searchDocumentChunks (embed : List Char → List Int)
    (score : List Int → List Int → Int) (store : List PineconeVector)
    (query : List Char) (conversationId : String) (topK : Nat) : List DocMatch :=
  (searchMatches embed score store query conversationId topK).map (fun m =>
    { score := score (embed query) m.values
      fileName := m.metadata.fileName
      fileType := m.metadata.fileType
      text := m.metadata.text
      chunkIndex := m.metadata.chunkIndex })

/-! ## Offline bulk-ingestion pipeline (`processDocuments.cjs`) -/

/-- A knowledge-base vector stored by `storeInPinecone`
(`processDocuments.cjs` lines 211–242): id `${sanitizedTitle}-${i}`,
metadata `{...documentMetadata, text, chunk_index}` — no conversation tag. -/
structure KbVector where
  id : String
  values : List Int
  title : String
  text : List Char
  chunkIndex : Nat
  deriving Repr, DecidableEq

/-- Sanitisation of the vector-id title: `title.replace(/[^a-zA-Z0-9-_]/g, '_')`. -/
def sanitizeTitle (title : String) : String :=
  String.mk (title.toList.map (fun c =>
    if c.isAlpha || c.isDigit || c = '-' || c = '_' then c else '_'))

/-- State touched by the offline ingestion job: the processed-hashes store
(`processed/document_hashes.json`, a filename → content-hash map), the
knowledge-base slice of the vector index, and the number of embedding calls
issued so far. -/
structure OfflineState where
  hashes : List (String × String)
  kbStore : List KbVector
  embedCalls : Nat
  deriving Repr, DecidableEq

/-- Lookup in the processed-hashes map (`loadProcessedHashes()[fileName]`). -/
def lookupHash (hashes : List (String × String)) (name : String) : Option String :=
  (hashes.find? (fun p => p.1 == name)).map (fun p => p.2)

/-- `saveProcessedHash` (`processDocuments.cjs` lines 153–158): JSON-object
assignment `hashes[name] = hash` — overwrite the entry if present, append
otherwise. -/
def saveProcessedHash (hashes : List (String × String)) (name hash : String) :
    List (String × String) :=
  if hashes.any (fun p => p.1 == name) then
    hashes.map (fun p => if p.1 == name then (name, hash) else p)
  else hashes ++ [(name, hash)]

/-- `processDocument(filePath)` (`processDocuments.cjs` lines 245–301) on a
file with basename `fileName` and byte content `content`.  The SHA-256
content hash (`calculateFileHash`) is abstract (`hashFn`), as are the
embedding provider (`embed`) and the PDF text extractor (`extractPdfText`,
returning `none` when `pdfParse` fails).  A file whose recorded hash equals
its current content hash is a detected duplicate: it is moved aside and the
state is untouched.  Otherwise the extracted text is normalised, chunked
with `maxChunkSize = 1000`, `overlap = 200` (`CONFIG.chunking`), each chunk
embedded, the vectors upserted and the content hash recorded. -/
def processDocument (hashFn : List Nat → String) (embed : List Char → List Int)
    (extractPdfText : List Nat → Option (List Char)) (fileName : String)
    (content : List Nat) (s : OfflineState) : OfflineState :=
  let fileHash := hashFn content
  if lookupHash s.hashes fileName == some fileHash then s
  else
    match extractPdfText content with
    | none => s
    | some rawText =>
        let title := sanitizeTitle fileName
        let chunks := splitIntoChunks (normalizeText rawText) 1000 200
        let vectors := chunks.enum.map (fun ic =>
          { id := title ++ "-" ++ toString ic.1
            values := embed ic.2
            title := fileName
            text := ic.2
            chunkIndex := ic.1 : KbVector })
        { hashes := saveProcessedHash s.hashes fileName fileHash
          kbStore := s.kbStore.filter (fun v => vectors.all (fun w => w.id != v.id)) ++ vectors
          embedCalls := s.embedCalls + chunks.length }

/-! ## Conversation store (`src/db.mjs`) -/

/-- Row of the `conversations` table. -/
structure Conversation where
  id : Nat
  userId : Nat
  title : String
  createdAt : Nat
  updatedAt : Nat
  deriving Repr, DecidableEq

/-- Row of the `messages` table. -/
structure Message where
  id : Nat
  conversationId : Nat
  role : String
  content : String
  createdAt : Nat
  deriving Repr, DecidableEq

/-- The relational store consumed by `db.mjs`. -/
structure ChatDb where
  conversations : List Conversation
  messages : List Message
  deriving Repr, DecidableEq

/-- `getConversationMessages(conversationId, userId)` (`src/db.mjs` lines
171–192): first `SELECT id FROM conversations WHERE id = $1 AND user_id = $2`
— if no row matches, the function throws `Unauthorized access to
conversation`, which the surrounding catch rethrows prefixed with
`Failed to fetch conversation messages: `.  Otherwise
`SELECT * FROM messages WHERE conversation_id = $1 ORDER BY created_at ASC`. -/
def getConversationMessages (db : ChatDb) (conversationId userId : Nat) :
    Except String (List Message) :=
  if (db.conversations.filter (fun c => c.id == conversationId && c.userId == userId)).isEmpty then
    .error "Failed to fetch conversation messages: Unauthorized access to conversation"
  else
    .ok ((db.messages.filter (fun m => m.conversationId == conversationId)).insertionSort
      (fun a b => a.createdAt ≤ b.createdAt))

/-- Ownership of a conversation row by a user. -/
def ownsConversation (db : ChatDb) (userId conversationId : Nat) : Prop :=
  ∃ c, c ∈ db.conversations ∧ c.id = conversationId ∧ c.userId = userId

instance (db : ChatDb) (userId conversationId : Nat) :
    Decidable (ownsConversation db userId conversationId) := by
  unfold ownsConversation
  exact List.decidableBEx _ db.conversations

/-! ## Streaming chat handler (`src/server.mjs`, `app.post('/api/chat')`) -/

/-- Server-sent events emitted by the chat endpoint. -/
inductive SseEvent where
  | conversation (id : String)
  | content (s : String)
  | done
  | error (msg : String)
  deriving Repr, DecidableEq

/-- Observable steps of one chat request, in execution order: successful
database writes, external retrieval calls, stream creation, emitted SSE
events, and closing the response. -/
inductive ChatStep where
  | dbCreateConversation (userId : String) (title : String)
  | dbAddMessage (conversationId : String) (role : String) (content : String)
  | dbUpdateTimestamp (conversationId : String)
  | embedCall (input : String)
  | generalQuery
  | docsQuery (conversationId : String)
  | streamCreate
  | sse (e : SseEvent)
  | endResponse
  deriving Repr, DecidableEq

/-- Failure point occurring after the completion stream was created: a throw
while iterating the stream (after `n` chunks were handled), a throw from
`addMessage(..., 'assistant', ...)`, or a throw from
`updateConversationTimestamp`.  `noFail` is the natural-completion path. -/
inductive LateFailure where
  | noFail
  | duringStream (n : Nat) (msg : String)
  | atPersist (msg : String)
  | atTimestamp (msg : String)
  deriving Repr, DecidableEq

/-- Outcome of every external call one chat request makes, in program order.
`deltas` are the values of `chunk.choices[0]?.delta?.content` over the
completion stream (`none` models a missing field). -/
structure ChatScenario where
  createConv : Except String String
  addUserMsg : Except String Unit
  embedQuery : Except String Unit
  generalQ : Except String Unit
  docsQ : Except String Unit
  streamCreateRes : Except String Unit
  deltas : List (Option String)
  late : LateFailure
  deriving Repr

/-- The stream fragments that are both accumulated and forwarded:
`const content = chunk.choices[0]?.delta?.content || ''; if (content) …`
keeps exactly the present, non-empty fragments. -/
def nonEmptyDeltas (deltas : List (Option String)) : List String :=
  deltas.filterMap (fun d =>
    match d with
    | some s => if s = "" then none else some s
    | none => none)

/-- The `content` SSE events produced while iterating the stream. -/
def contentSteps (deltas : List (Option String)) : List ChatStep :=
  (nonEmptyDeltas deltas).map (fun s => .sse (.content s))

/-- The accumulated assistant text (`assistantMessage += content`). -/
def accumulatedText (deltas : List (Option String)) : String :=
  String.join (nonEmptyDeltas deltas)

/-- `error.message || 'Internal server error'`. -/
def jsErrMsg (m : String) : String :=
  if m = "" then "Internal server error" else m

/-- Conversation title used when the request carries no conversation id:
`message.slice(0, 50) + '...'`. -/
def titleOf (message : String) : String :=
  String.mk (message.toList.take 50) ++ "..."

/-- The trace appended by the catch block (`src/server.mjs` lines 709–716):
emit a terminal `error` event carrying `error.message || 'Internal server
error'` — with no NODE_ENV check — then `res.end()`. -/
def failTail (msg : String) : List ChatStep :=
  [.sse (.error (jsErrMsg msg)), .endResponse]

/-- Body of the chat handler after a conversation id has been resolved
(`src/server.mjs` lines 602–716): save the user message, embed the query,
run the two retrieval searches (issued via `Promise.all`, modelled in
program order), create the completion stream, forward content fragments
while accumulating them, then persist the assistant message, bump the
conversation timestamp, emit `done` and close.  The first failing call
diverts to the catch block.  `production` records NODE_ENV, which the catch
block does not consult. -/
def chatCore (production : Bool) (message conversationId : String)
    (pre : List ChatStep) (sc : ChatScenario) : List ChatStep :=
  match sc.addUserMsg with
  | .error m => pre ++ failTail m
  | .ok _ =>
  let t1 := pre ++ [.dbAddMessage conversationId "user" message]
  match sc.embedQuery with
  | .error m => t1 ++ failTail m
  | .ok _ =>
  let t2 := t1 ++ [.embedCall message]
  match sc.generalQ, sc.docsQ with
  | .error m, _ => t2 ++ failTail m
  | .ok _, .error m => t2 ++ failTail m
  | .ok _, .ok _ =>
  let t3 := t2 ++ [.generalQuery, .docsQuery conversationId]
  match sc.streamCreateRes with
  | .error m => t3 ++ failTail m
  | .ok _ =>
  let t4 := t3 ++ [.streamCreate]
  match sc.late with
  | .duringStream n m => t4 ++ contentSteps (sc.deltas.take n) ++ failTail m
  | .atPersist m => t4 ++ contentSteps sc.deltas ++ failTail m
  | .atTimestamp m =>
      t4 ++ contentSteps sc.deltas ++
        [.dbAddMessage conversationId "assistant" (accumulatedText sc.deltas)] ++ failTail m
  | .noFail =>
      t4 ++ contentSteps sc.deltas ++
        [.dbAddMessage conversationId "assistant" (accumulatedText sc.deltas),
         .dbUpdateTimestamp conversationId, .sse .done, .endResponse]

/-- `app.post('/api/chat')` (`src/server.mjs` lines 572–717): when the
request carries no conversation id, a conversation is created first and its
id announced with a `conversation` event; then the common body runs.  The
result is the ordered trace of observable steps of the request. -/
def chatHandler (production : Bool) (message : String)
    (conversationId : Option String) (userId : String) (sc : ChatScenario) :
    List ChatStep :=
  match conversationId with
  | some cid => chatCore production message cid [] sc
  | none =>
      match sc.createConv with
      | .error m => failTail m
      | .ok newId =>
          chatCore production message newId
            [.dbCreateConversation userId (titleOf message), .sse (.conversation newId)] sc

/-- The `content` fragments carried by a trace, in delivery order. -/
def sseContents (tr : List ChatStep) : List String :=
  tr.filterMap (fun s =>
    match s with
    | .sse (.content c) => some c
    | _ => none)

/-! ## Upload endpoint (`src/server.mjs`, `app.post('/api/upload')`) -/

/-- Binary signature table (`src/server.mjs` lines 384–389): `%PDF` for PDF,
ZIP local-file header for XLSX, OLE2 header for XLS; `null` for CSV (no
consistent signature) and for unknown keys. -/
def fileSignatures (t : String) : Option (List Nat) :=
  if t = "pdf" then some [0x25, 0x50, 0x44, 0x46]
  else if t = "xlsx" then some [0x50, 0x4B, 0x03, 0x04]
  else if t = "xls" then some [0xD0, 0xCF, 0x11, 0xE0]
  else none

/-- `validateFileSignature(filePath, expectedType)` (`src/server.mjs` lines
391–408): with no signature for the type the check is skipped (`true`);
otherwise every signature byte must equal the corresponding leading byte of
the file (a missing byte — file shorter than the signature — fails). -/
def validateFileSignature (fileBytes : List Nat) (expectedType : String) : Bool :=
  match fileSignatures expectedType with
  | none => true
  | some sig => fileBytes.take sig.length == sig

/-- `path.extname(name)` for ordinary names: the suffix from the last dot
(dot included), or the empty string when the name has no dot. -/
def extname (name : String) : String :=
  let cs := name.toList
  match cs.reverse.findIdx? (fun c => c = '.') with
  | some i => String.mk (cs.drop (cs.length - 1 - i))
  | none => ""

/-- `String.prototype.toLowerCase` restricted to ASCII. -/
def jsToLower (s : String) : String :=
  String.mk (s.toList.map Char.toLower)

/-- The `switch (fileExtension)` of the upload endpoint (`src/server.mjs`
lines 465–472) mapping the lower-cased extension to the signature key. -/
def expectedTypeOf (ext : String) : Option String :=
  if ext = ".pdf" then some "pdf"
  else if ext = ".xlsx" then some "xlsx"
  else if ext = ".xls" then some "xls"
  else if ext = ".csv" then some "csv"
  else none

/-- Observable actions of one upload request, in execution order. -/
inductive UpAction where
  | validateSig
  | processFileA
  | createEmbeddingsA
  | cleanupA
  deriving Repr, DecidableEq

/-- HTTP status plus ordered action trace of one upload request. -/
structure UploadResult where
  status : Nat
  actions : List UpAction
  deriving Repr, DecidableEq

/-- `app.post('/api/upload')` (`src/server.mjs` lines 448–540): reject when
no file was uploaded; validate the binary signature against the claimed
extension (when the extension maps to a signature key), deleting the
temporary file and answering 400 on mismatch; require a conversation id
(400 + cleanup otherwise); then extract text (`processFile`), embed and
upsert (`createDocumentEmbeddings`) and clean up — any thrown error answers
500 after cleanup.  `processOk`/`embedOk` give the outcomes of the two
fallible processing stages. -/
def uploadHandler (file : Option (String × List Nat)) (conversationId : Option String)
    (processOk embedOk : Bool) : UploadResult :=
  match file with
  | none => { status := 400, actions := [] }
  | some fileData =>
      let ext := jsToLower (extname fileData.1)
      let validated :=
        match expectedTypeOf ext with
        | some ty =>
            if validateFileSignature fileData.2 ty then some [UpAction.validateSig]
            else none
        | none => some []
      match validated with
      | none => { status := 400, actions := [.validateSig, .cleanupA] }
      | some pre =>
          match conversationId with
          | none => { status := 400, actions := pre ++ [.cleanupA] }
          | some _ =>
              if !processOk then { status := 500, actions := pre ++ [.processFileA, .cleanupA] }
              else if !embedOk then
                { status := 500, actions := pre ++ [.processFileA, .createEmbeddingsA, .cleanupA] }
              else
                { status := 200, actions := pre ++ [.processFileA, .createEmbeddingsA, .cleanupA] }

/-- A normalized extracted text (a fixed point of `normalizeText`: printable
characters, single internal spaces, trimmed) on which the offline chunker's
per-chunk trim loses the space at position 999: 999 `a`s, one space, two
`b`s. -/
def cexC2 : List Char := List.replicate 999 'a' ++ ' ' :: List.replicate 2 'b'

/-! ## Theorems -/

/-- C10: when the extracted text of a processed document is empty,
`createDocumentEmbeddings` produces zero chunks (so no embedding call is
made — one call is issued per chunk), performs no upsert (the store is
returned unchanged), and returns successfully with `chunksCreated = 0` and
an empty `vectorIds` list. -/
theorem empty_text_creates_nothing (embed : List Char → List Int)
    (originalName fileType conversationId : String) (now : Nat)
    (store : List PineconeVector) (openaiReady pineconeReady : Bool)
    (h1 : openaiReady = true) (h2 : pineconeReady = true) :
    createDocumentEmbeddings openaiReady pineconeReady embed [] originalName
        fileType conversationId now store =
      .ok (store, { chunksCreated := 0, vectorIds := [] }) ∧
    uploadChunks ([] : List Char) = [] := by
  subst h1 h2
  exact ⟨rfl, rfl⟩

/-- Closed witness for C10. -/
theorem empty_text_creates_nothing_witness :
    createDocumentEmbeddings true true (fun _ => [1]) [] "f.pdf" "PDF" "c1" 7 [] =
      .ok ([], { chunksCreated := 0, vectorIds := [] }) :=
  (empty_text_creates_nothing (fun _ => [1]) "f.pdf" "PDF" "c1" 7 [] true true rfl rfl).1

/-- Every vector selected by the conversation-scoped query satisfies the
`conversationId $eq` filter. -/
theorem mem_searchMatches_conversationId (embed : List Char → List Int)
    (score : List Int → List Int → Int) (store : List PineconeVector)
    (query : List Char) (cid : String) (topK : Nat) (v : PineconeVector)
    (hv : v ∈ searchMatches embed score store query cid topK) :
    v.metadata.conversationId = some cid := by
  unfold searchMatches pineconeQuery at hv
  have hv' := List.take_subset _ _ hv
  rw [(List.perm_insertionSort _ _).mem_iff] at hv'
  have := (List.mem_filter.mp hv').2
  simpa using this

/-- C1: conversation-scoped document isolation.  Every match selected by
`searchDocumentChunks`'s vector query (`searchMatches`; the returned
`DocMatch` list is its pointwise projection) has metadata whose
`conversationId` equals the supplied conversation identifier; every vector
built by `createDocumentEmbeddings` (`chunkVectors`) carries the requesting
conversation's identifier; hence a chunk vector ingested under conversation
`cidA` is never among the matches of a search scoped to a different
conversation `cid`, for every store, query text, embedding, scoring and
`topK`. -/
theorem conversation_scoped_isolation (embed embed2 : List Char → List Int)
    (score : List Int → List Int → Int) (store : List PineconeVector)
    (query text : List Char) (cid cidA name ftype : String) (topK now : Nat) :
    (∀ v ∈ searchMatches embed score store query cid topK,
      v.metadata.conversationId = some cid) ∧
    (∀ v ∈ chunkVectors embed2 text name ftype cidA now,
      v.metadata.conversationId = some cidA) ∧
    (cidA ≠ cid →
      ∀ v ∈ chunkVectors embed2 text name ftype cidA now,
        v ∉ searchMatches embed score store query cid topK) := by
  have hcv : ∀ v ∈ chunkVectors embed2 text name ftype cidA now,
      v.metadata.conversationId = some cidA := by
    intro v hv
    unfold chunkVectors at hv
    simp only [List.mem_map] at hv
    obtain ⟨ic, _, rfl⟩ := hv
    rfl
  refine ⟨fun v hv => mem_searchMatches_conversationId embed score store query cid topK v hv,
    hcv, fun hne v hv hmem => ?_⟩
  have h1 := hcv v hv
  have h2 := mem_searchMatches_conversationId embed score store query cid topK v hmem
  rw [h1] at h2
  exact hne (Option.some.inj h2)

/-- Closed witness for C1: a concrete store holding one vector ingested
under conversation `A`; a search scoped to `B ≠ A` never returns it. -/
theorem conversation_scoped_isolation_witness :
    (∀ v ∈ searchMatches (fun _ => [1]) (fun _ _ => 0)
        (chunkVectors (fun _ => [1]) ['h', 'i'] "f.pdf" "PDF" "A" 7)
        ['q'] "B" 5,
      v.metadata.conversationId = some "B") ∧
    (∀ v ∈ chunkVectors (fun _ => [1]) ['h', 'i'] "f.pdf" "PDF" "A" 7,
      v.metadata.conversationId = some "A") ∧
    ("A" : String) ≠ "B" ∧
    (∀ v ∈ chunkVectors (fun _ => [1]) ['h', 'i'] "f.pdf" "PDF" "A" 7,
      v ∉ searchMatches (fun _ => [1]) (fun _ _ => 0)
        (chunkVectors (fun _ => [1]) ['h', 'i'] "f.pdf" "PDF" "A" 7)
        ['q'] "B" 5) := by
  have h := conversation_scoped_isolation (fun _ => [1]) (fun _ => [1]) (fun _ _ => 0)
    (chunkVectors (fun _ => [1]) ['h', 'i'] "f.pdf" "PDF" "A" 7)
    ['q'] ['h', 'i'] "B" "A" "f.pdf" "PDF" 5 7
  exact ⟨h.1, h.2.1, by decide, h.2.2 (by decide)⟩

/-- C4: ownership enforcement.  `getConversationMessages(id, userId)` fails
with the authorization error (the message the route matches on
`'Unauthorized'`) exactly when `userId` does not own conversation `id` —
including when the conversation does not exist — and for the owner returns
precisely the conversation's messages, ordered by creation time ascending. -/
theorem ownership_enforcement (db : ChatDb) (conversationId userId : Nat) :
    (¬ ownsConversation db userId conversationId →
      getConversationMessages db conversationId userId =
        .error "Failed to fetch conversation messages: Unauthorized access to conversation") ∧
    (ownsConversation db userId conversationId →
      ∃ ms, getConversationMessages db conversationId userId = .ok ms ∧
        ms.Perm (db.messages.filter (fun m => m.conversationId == conversationId)) ∧
        ms.Pairwise (fun a b => a.createdAt ≤ b.createdAt)) := by
  have hiff : (db.conversations.filter
      (fun c => c.id == conversationId && c.userId == userId)).isEmpty = true ↔
      ¬ ownsConversation db userId conversationId := by
    rw [List.isEmpty_iff, List.filter_eq_nil_iff]
    constructor
    · rintro h ⟨c, hc, h1, h2⟩
      exact h c hc (by simp [h1, h2])
    · intro h c hc hp
      simp only [Bool.and_eq_true, beq_iff_eq] at hp
      exact h ⟨c, hc, hp.1, hp.2⟩
  constructor
  · intro h
    unfold getConversationMessages
    rw [if_pos (hiff.mpr h)]
  · intro h
    unfold getConversationMessages
    rw [if_neg (fun hempty => (hiff.mp hempty) h)]
    refine ⟨_, rfl, List.perm_insertionSort _ _, ?_⟩
    haveI : IsTotal Message (fun a b => a.createdAt ≤ b.createdAt) :=
      ⟨fun a b => Nat.le_total _ _⟩
    haveI : IsTrans Message (fun a b => a.createdAt ≤ b.createdAt) :=
      ⟨fun _ _ _ hab hbc => Nat.le_trans hab hbc⟩
    exact List.sorted_insertionSort _ _

/-- Closed witness for C4: a database with one conversation owned by user 1
holding two messages stored out of creation order; user 2 is rejected with
the authorization error, user 1 receives the messages sorted ascending. -/
theorem ownership_enforcement_witness :
    (getConversationMessages
        { conversations := [{ id := 10, userId := 1, title := "t", createdAt := 0, updatedAt := 0 }]
          messages :=
            [{ id := 2, conversationId := 10, role := "assistant", content := "pong", createdAt := 5 },
             { id := 1, conversationId := 10, role := "user", content := "ping", createdAt := 3 }] }
        10 2 =
      .error "Failed to fetch conversation messages: Unauthorized access to conversation") ∧
    (∃ ms, getConversationMessages
        { conversations := [{ id := 10, userId := 1, title := "t", createdAt := 0, updatedAt := 0 }]
          messages :=
            [{ id := 2, conversationId := 10, role := "assistant", content := "pong", createdAt := 5 },
             { id := 1, conversationId := 10, role := "user", content := "ping", createdAt := 3 }] }
        10 1 = .ok ms ∧
      ms.Perm (([{ id := 2, conversationId := 10, role := "assistant", content := "pong", createdAt := 5 },
                 { id := 1, conversationId := 10, role := "user", content := "ping", createdAt := 3 }] :
        List Message).filter (fun m => m.conversationId == 10)) ∧
      ms.Pairwise (fun a b => a.createdAt ≤ b.createdAt)) := by
  constructor
  · exact (ownership_enforcement _ 10 2).1 (by decide)
  · exact (ownership_enforcement _ 10 1).2 (by decide)

/-- After `saveProcessedHash`, looking the file up yields the saved hash. -/
theorem lookupHash_saveProcessedHash (hashes : List (String × String))
    (name hash : String) :
    lookupHash (saveProcessedHash hashes name hash) name = some hash := by
  unfold saveProcessedHash
  split
  · rename_i hany
    induction hashes with
    | nil => simp at hany
    | cons p t ih =>
        by_cases hp : p.1 = name
        · simp [lookupHash, List.find?, hp]
        · have hp' : (p.1 == name) = false := beq_false_of_ne hp
          simp only [List.any_cons, hp', Bool.false_or] at hany
          simp only [List.map_cons, hp', if_false]
          simpa [lookupHash, List.find?, hp'] using ih hany
  · rename_i hany
    induction hashes with
    | nil => simp [lookupHash, List.find?]
    | cons p t ih =>
        have hp' : (p.1 == name) = false := by
          by_contra hne
          have := eq_true_of_ne_false hne
          exact absurd (by simp [List.any_cons, this]) hany
        have ht : ¬ t.any (fun p => p.1 == name) = true := by
          intro h
          exact hany (by simp [List.any_cons, h])
        simpa [lookupHash, List.find?, hp'] using ih ht

/-- C8: idempotent re-upload detection on the offline ingestion path.  When
the processed-hashes store already records the file's current content hash,
`processDocument` is a no-op: no embedding call, no upsert, no state change.
Consequently running `processDocument` twice on the same bytes performs the
whole pipeline at most once (the second run is always a no-op on the state
produced by the first). -/
theorem duplicate_upload_detected (hashFn : List Nat → String)
    (embed : List Char → List Int) (extractPdfText : List Nat → Option (List Char))
    (fileName : String) (content : List Nat) (s : OfflineState) :
    (lookupHash s.hashes fileName = some (hashFn content) →
      processDocument hashFn embed extractPdfText fileName content s = s) ∧
    processDocument hashFn embed extractPdfText fileName content
        (processDocument hashFn embed extractPdfText fileName content s) =
      processDocument hashFn embed extractPdfText fileName content s := by
  have hdup : ∀ t : OfflineState, lookupHash t.hashes fileName = some (hashFn content) →
      processDocument hashFn embed extractPdfText fileName content t = t := by
    intro t h
    unfold processDocument
    rw [if_pos (by simp [h])]
  refine ⟨hdup s, ?_⟩
  by_cases h1 : lookupHash s.hashes fileName = some (hashFn content)
  · rw [hdup s h1, hdup s h1]
  · cases hext : extractPdfText content with
    | none =>
        have hs1 : processDocument hashFn embed extractPdfText fileName content s = s := by
          unfold processDocument
          rw [if_neg (by simpa using h1), hext]
        rw [hs1, hs1]
    | some rawText =>
        have hs1 : (processDocument hashFn embed extractPdfText fileName content s).hashes =
            saveProcessedHash s.hashes fileName (hashFn content) := by
          unfold processDocument
          rw [if_neg (by simpa using h1), hext]
        refine hdup _ ?_
        rw [hs1]
        exact lookupHash_saveProcessedHash _ _ _

/-- Closed witness for C8: a state recording the hash of `content` under the
file's name; reprocessing the identical bytes changes nothing. -/
theorem duplicate_upload_detected_witness :
    lookupHash [("a.pdf", "h42")] "a.pdf" = some ((fun _ => "h42") [1, 2]) ∧
    processDocument (fun _ => "h42") (fun _ => [1]) (fun _ => some ['x'])
        "a.pdf" [1, 2]
        { hashes := [("a.pdf", "h42")], kbStore := [], embedCalls := 0 } =
      { hashes := [("a.pdf", "h42")], kbStore := [], embedCalls := 0 } :=
  ⟨rfl,
    (duplicate_upload_detected (fun _ => "h42") (fun _ => [1]) (fun _ => some ['x'])
      "a.pdf" [1, 2]
      { hashes := [("a.pdf", "h42")], kbStore := [], embedCalls := 0 }).1 rfl⟩

/-- C7: binary-signature validation before processing.  For every uploaded
file whose claimed extension maps to a signature key, a leading-bytes
mismatch is rejected with HTTP 400 after only the signature check and the
temporary-file cleanup — no text extraction and no embedding happen; and
conversely, whenever `processFile` is reached, any signature check the
claimed type admits has passed. -/
theorem signature_mismatch_rejected (name : String) (bytes : List Nat)
    (cid : Option String) (processOk embedOk : Bool) :
    (∀ ty, expectedTypeOf (jsToLower (extname name)) = some ty →
      validateFileSignature bytes ty = false →
      uploadHandler (some (name, bytes)) cid processOk embedOk =
        { status := 400, actions := [.validateSig, .cleanupA] }) ∧
    (UpAction.processFileA ∈ (uploadHandler (some (name, bytes)) cid processOk embedOk).actions →
      ∀ ty, expectedTypeOf (jsToLower (extname name)) = some ty →
        validateFileSignature bytes ty = true) := by
  constructor
  · intro ty hty hval
    simp [uploadHandler, hty, hval]
  · intro hmem ty hty
    by_cases hval : validateFileSignature bytes ty = true
    · exact hval
    · exfalso
      rw [Bool.not_eq_true] at hval
      simp [uploadHandler, hty, hval] at hmem

/-- Closed witness for C7: a file claiming extension `.pdf` whose first
bytes are not `%PDF` is rejected with status 400, cleanup, and no
processing. -/
theorem signature_mismatch_rejected_witness :
    expectedTypeOf (jsToLower (extname "evil.pdf")) = some "pdf" ∧
    validateFileSignature [0x4D, 0x5A, 0x90, 0x00] "pdf" = false ∧
    uploadHandler (some ("evil.pdf", [0x4D, 0x5A, 0x90, 0x00])) (some "c1") true true =
      { status := 400, actions := [.validateSig, .cleanupA] } :=
  ⟨by decide, by decide,
    (signature_mismatch_rejected "evil.pdf" [0x4D, 0x5A, 0x90, 0x00] (some "c1") true true).1
      "pdf" (by decide) (by decide)⟩

/-- On the all-success path, the chat body produces exactly: user write,
retrieval (embed + both searches), stream creation, the content events,
assistant write, timestamp update, `done`, close. -/
theorem chatCore_success_shape (production : Bool) (message cid : String)
    (pre : List ChatStep) (sc : ChatScenario)
    (h1 : sc.addUserMsg = .ok ()) (h2 : sc.embedQuery = .ok ())
    (h3 : sc.generalQ = .ok ()) (h4 : sc.docsQ = .ok ())
    (h5 : sc.streamCreateRes = .ok ()) (h6 : sc.late = .noFail) :
    chatCore production message cid pre sc =
      pre ++ [.dbAddMessage cid "user" message, .embedCall message, .generalQuery,
          .docsQuery cid, .streamCreate] ++ contentSteps sc.deltas ++
        [.dbAddMessage cid "assistant" (accumulatedText sc.deltas),
         .dbUpdateTimestamp cid, .sse .done, .endResponse] := by
  unfold chatCore
  rw [h1, h2, h3, h4, h5, h6]
  simp

/-- A `done` event can only come from the all-success path: every failure
diverts to the catch block, which emits `error` instead. -/
theorem chatCore_done_analysis (production : Bool) (message cid : String)
    (pre : List ChatStep) (sc : ChatScenario)
    (hd : ChatStep.sse .done ∉ pre)
    (h : ChatStep.sse .done ∈ chatCore production message cid pre sc) :
    sc.addUserMsg = .ok () ∧ sc.embedQuery = .ok () ∧ sc.generalQ = .ok () ∧
    sc.docsQ = .ok () ∧ sc.streamCreateRes = .ok () ∧ sc.late = .noFail := by
  unfold chatCore at h
  cases h1 : sc.addUserMsg with
  | error m => rw [h1] at h; simp [failTail] at h; exact absurd h hd
  | ok u =>
  cases u
  rw [h1] at h
  cases h2 : sc.embedQuery with
  | error m => rw [h2] at h; simp [failTail] at h; exact absurd h hd
  | ok u =>
  cases u
  rw [h2] at h
  cases h3 : sc.generalQ with
  | error m => rw [h3] at h; simp [failTail] at h; exact absurd h hd
  | ok u =>
  cases u
  rw [h3] at h
  cases h4 : sc.docsQ with
  | error m => rw [h4] at h; simp [failTail] at h; exact absurd h hd
  | ok u =>
  cases u
  rw [h4] at h
  cases h5 : sc.streamCreateRes with
  | error m => rw [h5] at h; simp [failTail] at h; exact absurd h hd
  | ok u =>
  cases u
  rw [h5] at h
  cases h6 : sc.late with
  | duringStream n m =>
      rw [h6] at h; simp [failTail, contentSteps] at h; exact absurd h hd
  | atPersist m =>
      rw [h6] at h; simp [failTail, contentSteps] at h; exact absurd h hd
  | atTimestamp m =>
      rw [h6] at h; simp [failTail, contentSteps] at h; exact absurd h hd
  | noFail => exact ⟨rfl, rfl, rfl, rfl, rfl, rfl⟩

/-- The `content` fragments of the content-event block are exactly the
non-empty stream deltas. -/
theorem sseContents_contentSteps (deltas : List (Option String)) :
    sseContents (contentSteps deltas) = nonEmptyDeltas deltas := by
  rw [sseContents, contentSteps, List.filterMap_map]
  exact List.filterMap_some _

/-- C3: streaming accumulator correctness.  Whenever the trace of a chat
request contains the terminal `done` event (the stream reached natural
completion), an assistant message whose text is exactly the concatenation,
in delivery order, of the fragments carried by the `content` events was
persisted via `addMessage`; moreover every assistant message persisted in
that request carries exactly that concatenation. -/
theorem streaming_accumulator_correct (production : Bool) (message : String)
    (conversationId : Option String) (userId : String) (sc : ChatScenario)
    (h : ChatStep.sse .done ∈ chatHandler production message conversationId userId sc) :
    (∃ cid, ChatStep.dbAddMessage cid "assistant"
        (String.join (sseContents (chatHandler production message conversationId userId sc))) ∈
      chatHandler production message conversationId userId sc) ∧
    (∀ cid' s, ChatStep.dbAddMessage cid' "assistant" s ∈
        chatHandler production message conversationId userId sc →
      s = String.join (sseContents (chatHandler production message conversationId userId sc))) := by
  cases conversationId with
  | some cid =>
      rw [chatHandler] at h ⊢
      obtain ⟨h1, h2, h3, h4, h5, h6⟩ :=
        chatCore_done_analysis production message cid [] sc (by simp) h
      rw [chatCore_success_shape production message cid [] sc h1 h2 h3 h4 h5 h6]
      have hc : String.join (sseContents
          (([] : List ChatStep) ++ [.dbAddMessage cid "user" message, .embedCall message,
              .generalQuery, .docsQuery cid, .streamCreate] ++ contentSteps sc.deltas ++
            [.dbAddMessage cid "assistant" (accumulatedText sc.deltas),
             .dbUpdateTimestamp cid, .sse .done, .endResponse])) =
          accumulatedText sc.deltas := by
        simp [sseContents, List.filterMap_append, accumulatedText]
        rw [← sseContents_contentSteps sc.deltas]
        rfl
      rw [hc]
      constructor
      · exact ⟨cid, by simp [contentSteps]⟩
      · intro cid' s hmem
        simp [contentSteps] at hmem
        exact hmem.2
  | none =>
      rw [chatHandler] at h
      cases hcc : sc.createConv with
      | error m => rw [hcc] at h; simp [failTail] at h
      | ok newId =>
      rw [hcc] at h
      obtain ⟨h1, h2, h3, h4, h5, h6⟩ :=
        chatCore_done_analysis production message newId
          [.dbCreateConversation userId (titleOf message), .sse (.conversation newId)] sc
          (by simp) h
      have htr : chatHandler production message none userId sc =
          [ChatStep.dbCreateConversation userId (titleOf message),
              .sse (.conversation newId)] ++ [.dbAddMessage newId "user" message,
              .embedCall message, .generalQuery, .docsQuery newId, .streamCreate] ++
            contentSteps sc.deltas ++
            [.dbAddMessage newId "assistant" (accumulatedText sc.deltas),
             .dbUpdateTimestamp newId, .sse .done, .endResponse] := by
        rw [chatHandler, hcc]
        exact chatCore_success_shape production message newId _ sc h1 h2 h3 h4 h5 h6
      rw [htr]
      have hc : String.join (sseContents
          ([ChatStep.dbCreateConversation userId (titleOf message),
              .sse (.conversation newId)] ++ [.dbAddMessage newId "user" message,
              .embedCall message, .generalQuery, .docsQuery newId, .streamCreate] ++
            contentSteps sc.deltas ++
            [.dbAddMessage newId "assistant" (accumulatedText sc.deltas),
             .dbUpdateTimestamp newId, .sse .done, .endResponse])) =
          accumulatedText sc.deltas := by
        simp [sseContents, List.filterMap_append, accumulatedText]
        rw [← sseContents_contentSteps sc.deltas]
        rfl
      rw [hc]
      constructor
      · exact ⟨newId, by simp [contentSteps]⟩
      · intro cid' s hmem
        simp [contentSteps] at hmem
        exact hmem.2

/-- Closed witness for C3: a two-fragment stream reaching `done`; the
persisted assistant text is the concatenation of the fragments. -/
theorem streaming_accumulator_correct_witness :
    ChatStep.sse .done ∈ chatHandler true "hi" (some "c1") "u1"
        { createConv := .ok "c1", addUserMsg := .ok (), embedQuery := .ok (),
          generalQ := .ok (), docsQ := .ok (), streamCreateRes := .ok (),
          deltas := [some "Hel", none, some "lo"], late := .noFail } ∧
    (∃ cid, ChatStep.dbAddMessage cid "assistant"
        (String.join (sseContents (chatHandler true "hi" (some "c1") "u1"
          { createConv := .ok "c1", addUserMsg := .ok (), embedQuery := .ok (),
            generalQ := .ok (), docsQ := .ok (), streamCreateRes := .ok (),
            deltas := [some "Hel", none, some "lo"], late := .noFail }))) ∈
      chatHandler true "hi" (some "c1") "u1"
        { createConv := .ok "c1", addUserMsg := .ok (), embedQuery := .ok (),
          generalQ := .ok (), docsQ := .ok (), streamCreateRes := .ok (),
          deltas := [some "Hel", none, some "lo"], late := .noFail }) :=
  ⟨by decide,
    (streaming_accumulator_correct true "hi" (some "c1") "u1"
      { createConv := .ok "c1", addUserMsg := .ok (), embedQuery := .ok (),
        generalQ := .ok (), docsQ := .ok (), streamCreateRes := .ok (),
        deltas := [some "Hel", none, some "lo"], late := .noFail } (by decide)).1⟩

/-- C6: persistence ordering per chat turn.  On a completed turn the trace
is exactly: (conversation creation and its announcement, only when the
request carried no id), then the user-message write, then retrieval (query
embedding followed by the two vector searches), then stream creation and
the content events, then the assistant-message write, then the activity
timestamp update, then `done`, then channel close.  In particular the user
message is written before retrieval begins, the assistant message only
after the full stream completes, and `done` only after both the assistant
write and the timestamp update. -/
theorem persistence_ordering (production : Bool) (message cid userId : String)
    (sc : ChatScenario)
    (h1 : sc.addUserMsg = .ok ()) (h2 : sc.embedQuery = .ok ())
    (h3 : sc.generalQ = .ok ()) (h4 : sc.docsQ = .ok ())
    (h5 : sc.streamCreateRes = .ok ()) (h6 : sc.late = .noFail) :
    chatHandler production message (some cid) userId sc =
      [ChatStep.dbAddMessage cid "user" message, .embedCall message, .generalQuery,
          .docsQuery cid, .streamCreate] ++ contentSteps sc.deltas ++
        [.dbAddMessage cid "assistant" (accumulatedText sc.deltas),
         .dbUpdateTimestamp cid, .sse .done, .endResponse] ∧
    (∀ newId, sc.createConv = .ok newId →
      chatHandler production message none userId sc =
        [ChatStep.dbCreateConversation userId (titleOf message),
            .sse (.conversation newId)] ++
          [ChatStep.dbAddMessage newId "user" message, .embedCall message, .generalQuery,
            .docsQuery newId, .streamCreate] ++ contentSteps sc.deltas ++
          [.dbAddMessage newId "assistant" (accumulatedText sc.deltas),
           .dbUpdateTimestamp newId, .sse .done, .endResponse]) := by
  constructor
  · rw [chatHandler]
    simpa using chatCore_success_shape production message cid [] sc h1 h2 h3 h4 h5 h6
  · intro newId hcc
    rw [chatHandler, hcc]
    exact chatCore_success_shape production message newId _ sc h1 h2 h3 h4 h5 h6

/-- Closed witness for C6 at a concrete completed turn. -/
theorem persistence_ordering_witness :
    chatHandler true "hi" (some "c1") "u1"
        { createConv := .ok "c9", addUserMsg := .ok (), embedQuery := .ok (),
          generalQ := .ok (), docsQ := .ok (), streamCreateRes := .ok (),
          deltas := [some "A", some "B"], late := .noFail } =
      [ChatStep.dbAddMessage "c1" "user" "hi", .embedCall "hi", .generalQuery,
          .docsQuery "c1", .streamCreate] ++
        contentSteps [some "A", some "B"] ++
        [.dbAddMessage "c1" "assistant" (accumulatedText [some "A", some "B"]),
         .dbUpdateTimestamp "c1", .sse .done, .endResponse] :=
  (persistence_ordering true "hi" "c1" "u1"
    { createConv := .ok "c9", addUserMsg := .ok (), embedQuery := .ok (),
      generalQ := .ok (), docsQ := .ok (), streamCreateRes := .ok (),
      deltas := [some "A", some "B"], late := .noFail }
    rfl rfl rfl rfl rfl rfl).1

/-- Counterexample for C5 as stated: in production mode
(`NODE_ENV = 'production'`), the catch block of the chat endpoint still
emits the full error detail — the terminal `error` event carries
`error.message` verbatim (`error.message || 'Internal server error'`),
with no environment check, so "full error detail only in non-production
mode" fails at this concrete production-mode request. -/
theorem production_error_detail_cex :
    ChatStep.sse (.error "boom") ∈
      chatHandler true "hi" (some "c1") "u1"
        { createConv := .ok "c1", addUserMsg := .ok (), embedQuery := .ok (),
          generalQ := .ok (), docsQ := .ok (), streamCreateRes := .ok (),
          deltas := [some "Hello"], late := .duringStream 1 "boom" } ∧
    ("boom" : String) ≠ "Internal server error" := by
  constructor
  · decide
  · decide

/-- C5 (amended): mid-stream failure handling.  For every request whose
stream was created and that fails afterwards — during stream iteration,
at the assistant-message write, or at the timestamp update — the driver
appends a terminal `error` event carrying the error's message (in
production and non-production mode alike) and then closes the channel;
the already-delivered `content` events remain in the trace, and no
assistant message is persisted unless the stream reached natural
completion (on a mid-stream failure no assistant write occurs; when the
write itself is what fails, the stream had already completed naturally). -/
theorem mid_stream_failure_handling (production : Bool) (message cid userId : String)
    (sc : ChatScenario)
    (h1 : sc.addUserMsg = .ok ()) (h2 : sc.embedQuery = .ok ())
    (h3 : sc.generalQ = .ok ()) (h4 : sc.docsQ = .ok ())
    (h5 : sc.streamCreateRes = .ok ()) :
    (∀ n m, sc.late = .duringStream n m →
      chatHandler production message (some cid) userId sc =
        [ChatStep.dbAddMessage cid "user" message, .embedCall message, .generalQuery,
            .docsQuery cid, .streamCreate] ++ contentSteps (sc.deltas.take n) ++
          [.sse (.error (jsErrMsg m)), .endResponse] ∧
      ∀ s, ChatStep.dbAddMessage cid "assistant" s ∉
        chatHandler production message (some cid) userId sc) ∧
    (∀ m, sc.late = .atPersist m →
      chatHandler production message (some cid) userId sc =
        [ChatStep.dbAddMessage cid "user" message, .embedCall message, .generalQuery,
            .docsQuery cid, .streamCreate] ++ contentSteps sc.deltas ++
          [.sse (.error (jsErrMsg m)), .endResponse]) ∧
    (∀ m, sc.late = .atTimestamp m →
      chatHandler production message (some cid) userId sc =
        [ChatStep.dbAddMessage cid "user" message, .embedCall message, .generalQuery,
            .docsQuery cid, .streamCreate] ++ contentSteps sc.deltas ++
          [.dbAddMessage cid "assistant" (accumulatedText sc.deltas),
           .sse (.error (jsErrMsg m)), .endResponse]) ∧
    chatHandler true message (some cid) userId sc =
      chatHandler false message (some cid) userId sc := by
  refine ⟨?_, ?_, ?_, rfl⟩
  · intro n m h6
    have htr : chatHandler production message (some cid) userId sc =
        [ChatStep.dbAddMessage cid "user" message, .embedCall message, .generalQuery,
            .docsQuery cid, .streamCreate] ++ contentSteps (sc.deltas.take n) ++
          [.sse (.error (jsErrMsg m)), .endResponse] := by
      rw [chatHandler]
      unfold chatCore
      rw [h1, h2, h3, h4, h5, h6]
      simp [failTail]
    refine ⟨htr, ?_⟩
    intro s hmem
    rw [htr] at hmem
    simp [contentSteps] at hmem
  · intro m h6
    rw [chatHandler]
    unfold chatCore
    rw [h1, h2, h3, h4, h5, h6]
    simp [failTail]
  · intro m h6
    rw [chatHandler]
    unfold chatCore
    rw [h1, h2, h3, h4, h5, h6]
    simp [failTail]

/-- Closed witness for C5 (amended), exercising all three failure stages
at concrete scenarios. -/
theorem mid_stream_failure_handling_witness :
    (chatHandler true "hi" (some "c1") "u1"
        { createConv := .ok "c1", addUserMsg := .ok (), embedQuery := .ok (),
          generalQ := .ok (), docsQ := .ok (), streamCreateRes := .ok (),
          deltas := [some "Hello", some "!"], late := .duringStream 1 "boom" } =
      [ChatStep.dbAddMessage "c1" "user" "hi", .embedCall "hi", .generalQuery,
          .docsQuery "c1", .streamCreate] ++
        contentSteps ([some "Hello", some "!"].take 1) ++
        [.sse (.error (jsErrMsg "boom")), .endResponse] ∧
      ∀ s, ChatStep.dbAddMessage "c1" "assistant" s ∉
        chatHandler true "hi" (some "c1") "u1"
          { createConv := .ok "c1", addUserMsg := .ok (), embedQuery := .ok (),
            generalQ := .ok (), docsQ := .ok (), streamCreateRes := .ok (),
            deltas := [some "Hello", some "!"], late := .duringStream 1 "boom" }) ∧
    (chatHandler true "hi" (some "c1") "u1"
        { createConv := .ok "c1", addUserMsg := .ok (), embedQuery := .ok (),
          generalQ := .ok (), docsQ := .ok (), streamCreateRes := .ok (),
          deltas := [some "Hello"], late := .atPersist "db down" } =
      [ChatStep.dbAddMessage "c1" "user" "hi", .embedCall "hi", .generalQuery,
          .docsQuery "c1", .streamCreate] ++ contentSteps [some "Hello"] ++
        [.sse (.error (jsErrMsg "db down")), .endResponse]) ∧
    (chatHandler true "hi" (some "c1") "u1"
        { createConv := .ok "c1", addUserMsg := .ok (), embedQuery := .ok (),
          generalQ := .ok (), docsQ := .ok (), streamCreateRes := .ok (),
          deltas := [some "Hello"], late := .atTimestamp "ts down" } =
      [ChatStep.dbAddMessage "c1" "user" "hi", .embedCall "hi", .generalQuery,
          .docsQuery "c1", .streamCreate] ++ contentSteps [some "Hello"] ++
        [.dbAddMessage "c1" "assistant" (accumulatedText [some "Hello"]),
         .sse (.error (jsErrMsg "ts down")), .endResponse]) :=
  ⟨(mid_stream_failure_handling true "hi" "c1" "u1"
      { createConv := .ok "c1", addUserMsg := .ok (), embedQuery := .ok (),
        generalQ := .ok (), docsQ := .ok (), streamCreateRes := .ok (),
        deltas := [some "Hello", some "!"], late := .duringStream 1 "boom" }
      rfl rfl rfl rfl rfl).1 1 "boom" rfl,
   (mid_stream_failure_handling true "hi" "c1" "u1"
      { createConv := .ok "c1", addUserMsg := .ok (), embedQuery := .ok (),
        generalQ := .ok (), docsQ := .ok (), streamCreateRes := .ok (),
        deltas := [some "Hello"], late := .atPersist "db down" }
      rfl rfl rfl rfl rfl).2.1 "db down" rfl,
   (mid_stream_failure_handling true "hi" "c1" "u1"
      { createConv := .ok "c1", addUserMsg := .ok (), embedQuery := .ok (),
        generalQ := .ok (), docsQ := .ok (), streamCreateRes := .ok (),
        deltas := [some "Hello"], late := .atTimestamp "ts down" }
      rfl rfl rfl rfl rfl).2.2.1 "ts down" rfl⟩

/-- A found period index is at least the search start. -/
theorem jsIndexOfFrom_ge (text : List Char) (c : Char) (fromIdx p : Nat)
    (h : jsIndexOfFrom text c fromIdx = some p) : fromIdx ≤ p := by
  unfold jsIndexOfFrom at h
  cases hf : (text.drop fromIdx).findIdx? (fun d => d = c) with
  | none => rw [hf] at h; cases h
  | some i => rw [hf] at h; cases h; exact Nat.le_add_right _ _

/-- The snapped cut is at least `startIndex + maxChunkSize - 49` for the
configured chunk size 1000: the period search starts 50 before the
provisional cut, so a snap can pull the cut back by at most 49. -/
theorem snapEnd_ge (text : List Char) (start : Nat) :
    start + 951 ≤ snapEnd text 1000 start := by
  unfold snapEnd
  split
  · cases hf : jsIndexOfFrom text '.' (start + 1000 - 50) with
    | none => dsimp only; omega
    | some p =>
        have := jsIndexOfFrom_ge text '.' (start + 1000 - 50) p hf
        dsimp only
        split <;> omega
  · omega

/-- The snapped cut is at most `startIndex + maxChunkSize + 50` for the
configured chunk size 1000: a snap moves the cut forward at most 49. -/
theorem snapEnd_le (text : List Char) (start : Nat) :
    snapEnd text 1000 start ≤ start + 1050 := by
  unfold snapEnd
  split
  · cases hf : jsIndexOfFrom text '.' (start + 1000 - 50) with
    | none => dsimp only; omega
    | some p => dsimp only; split <;> omega
  · omega

/-- Past the end of the text, the chunking loop stops at once. -/
theorem splitSlices_stop (text : List Char) (maxChunkSize overlap fuel start : Nat)
    (h : ¬ start < text.length) :
    splitSlices text maxChunkSize overlap fuel start = [] := by
  cases fuel with
  | zero => rfl
  | succ f => unfold splitSlices; rw [if_neg h]

/-- Fuel-insensitivity of the chunking loop at the configured parameters:
any two fuel amounts covering the remaining length produce the same result
— the loop terminates, since each iteration advances the start index by at
least 751 > 0 characters. -/
theorem splitSlices_fuel_insensitive (text : List Char) :
    ∀ n m start, text.length ≤ start + n → text.length ≤ start + m →
      splitSlices text 1000 200 n start = splitSlices text 1000 200 m start := by
  intro n
  induction n with
  | zero =>
      intro m start hn _
      rw [splitSlices_stop text 1000 200 0 start (by omega),
        splitSlices_stop text 1000 200 m start (by omega)]
  | succ n ih =>
      intro m start hn hm
      by_cases hs : start < text.length
      · cases m with
        | zero => omega
        | succ m' =>
            unfold splitSlices
            rw [if_pos hs, if_pos hs]
            have hge := snapEnd_ge text start
            have := ih m' (snapEnd text 1000 start - 200) (by omega) (by omega)
            rw [this]
      · rw [splitSlices_stop text 1000 200 _ start hs,
          splitSlices_stop text 1000 200 m start hs]

/-- Every raw slice has length at most 1050 at the configured parameters. -/
theorem splitSlices_length_le (text : List Char) :
    ∀ fuel start c, c ∈ splitSlices text 1000 200 fuel start → c.length ≤ 1050 := by
  intro fuel
  induction fuel with
  | zero => intro start c hc; cases hc
  | succ f ih =>
      intro start c hc
      unfold splitSlices at hc
      by_cases hs : start < text.length
      · rw [if_pos hs] at hc
        rcases List.mem_cons.mp hc with hc | hc
        · subst hc
          have hle := snapEnd_le text start
          calc (jsSlice text start (snapEnd text 1000 start)).length
              ≤ snapEnd text 1000 start - start := by
                unfold jsSlice
                exact (List.length_take_le _ _)
            _ ≤ 1050 := by omega
        · exact ih _ c hc
      · rw [if_neg hs] at hc; cases hc

/-- Every raw slice is non-empty: the loop only runs while
`startIndex < text.length` and every cut lies strictly past the start. -/
theorem splitSlices_ne_nil (text : List Char) :
    ∀ fuel start c, c ∈ splitSlices text 1000 200 fuel start → c ≠ [] := by
  intro fuel
  induction fuel with
  | zero => intro start c hc; cases hc
  | succ f ih =>
      intro start c hc
      unfold splitSlices at hc
      by_cases hs : start < text.length
      · rw [if_pos hs] at hc
        rcases List.mem_cons.mp hc with hc | hc
        · subst hc
          have hge := snapEnd_ge text start
          have hlen : (jsSlice text start (snapEnd text 1000 start)).length > 0 := by
            unfold jsSlice
            rw [List.length_take, List.length_drop]
            omega
          exact List.ne_nil_of_length_pos hlen
        · exact ih _ c hc
      · rw [if_neg hs] at hc; cases hc

/-- Trimming never lengthens a string. -/
theorem jsTrim_length_le (l : List Char) : (jsTrim l).length ≤ l.length := by
  unfold jsTrim
  calc ((l.dropWhile jsWhitespace).reverse.dropWhile jsWhitespace).reverse.length
      = ((l.dropWhile jsWhitespace).reverse.dropWhile jsWhitespace).length :=
        List.length_reverse _
    _ ≤ (l.dropWhile jsWhitespace).reverse.length :=
        (List.dropWhile_sublist _).length_le
    _ = (l.dropWhile jsWhitespace).length := List.length_reverse _
    _ ≤ l.length := (List.dropWhile_sublist _).length_le

/-- C9: offline chunker totality and bounds at the configured parameters
`maxChunkSize = 1000`, `overlap = 200`.  (i) The loop terminates on every
input: its result is insensitive to any fuel covering the text length.
(ii) Each iteration advances the start index by at least
`maxChunkSize - overlap - 50 = 750` characters (in fact at least 751).
(iii) Every chunk produced is non-empty and at most
`maxChunkSize + 50 = 1050` characters long. -/
theorem offline_chunker_totality_and_bounds (text : List Char) :
    (∀ extra, splitSlices text 1000 200 (text.length + 1 + extra) 0 =
      splitSlices text 1000 200 (text.length + 1) 0) ∧
    (∀ start, start + 750 ≤ snapEnd text 1000 start - 200) ∧
    (∀ c ∈ splitIntoChunks text 1000 200, c ≠ [] ∧ c.length ≤ 1050) := by
  refine ⟨?_, ?_, ?_⟩
  · intro extra
    exact splitSlices_fuel_insensitive text (text.length + 1 + extra) (text.length + 1) 0
      (by omega) (by omega)
  · intro start
    have := snapEnd_ge text start
    omega
  · intro c hc
    unfold splitIntoChunks at hc
    have hc' := List.mem_of_mem_filter hc
    have hne := List.of_mem_filter hc
    obtain ⟨d, hd, rfl⟩ := List.mem_map.mp hc'
    refine ⟨?_, ?_⟩
    · intro habs
      rw [habs] at hne
      simp at hne
    · calc (jsTrim d).length ≤ d.length := jsTrim_length_le d
        _ ≤ 1050 := splitSlices_length_le text _ _ d hd

/-- Closed witness for C9, evaluating the chunker on a concrete text. -/
theorem offline_chunker_totality_and_bounds_witness :
    (splitSlices (String.toList "abc") 1000 200 (3 + 1 + 5) 0 =
      splitSlices (String.toList "abc") 1000 200 (3 + 1) 0) ∧
    (0 + 750 ≤ snapEnd (String.toList "abc") 1000 0 - 200) ∧
    (String.toList "abc" ∈ splitIntoChunks (String.toList "abc") 1000 200 ∧
      String.toList "abc" ≠ [] ∧ (String.toList "abc").length ≤ 1050) := by
  have h := offline_chunker_totality_and_bounds (String.toList "abc")
  refine ⟨?_, h.2.1 0, by decide, h.2.2 (String.toList "abc") (by decide)⟩
  have := h.1 5
  simpa using this

/-- Upload-path chunker round trip, fuel-general form. -/
theorem uploadChunksGo_flatten (fuel : Nat) :
    ∀ text : List Char, text.length ≤ fuel → (uploadChunksGo fuel text).flatten = text := by
  induction fuel with
  | zero =>
      intro text h
      rw [List.length_eq_zero.mp (Nat.le_zero.mp h)]
      rfl
  | succ f ih =>
      intro text h
      cases text with
      | nil => rfl
      | cons c cs =>
          unfold uploadChunksGo
          rw [List.flatten_cons, ih ((c :: cs).drop uploadChunkSize)
            (by rw [List.length_drop]; simp [uploadChunkSize] at h ⊢; omega)]
          exact List.take_append_drop _ _

/-- Dropping the overlap from every slice after the first reconstructs the
text past the first cut: each later slice restarts exactly 200 characters
before the previous cut. -/
theorem splitSlices_drop_flatten (text : List Char) :
    ∀ fuel start, text.length ≤ start + fuel →
      ((splitSlices text 1000 200 fuel start).map (fun d => d.drop 200)).flatten =
        text.drop (start + 200) := by
  intro fuel
  induction fuel with
  | zero =>
      intro start h
      rw [splitSlices_stop text 1000 200 0 start (by omega)]
      rw [List.drop_eq_nil_of_le (by omega)]
      rfl
  | succ f ih =>
      intro start h
      by_cases hs : start < text.length
      · unfold splitSlices
        rw [if_pos hs, List.map_cons, List.flatten_cons]
        have hge := snapEnd_ge text start
        rw [ih (snapEnd text 1000 start - 200) (by omega)]
        have he : snapEnd text 1000 start - 200 + 200 = snapEnd text 1000 start := by omega
        rw [he]
        unfold jsSlice
        rw [List.drop_take, List.drop_drop]
        have hdrop : text.drop (snapEnd text 1000 start) =
            (text.drop (start + 200)).drop (snapEnd text 1000 start - start - 200) := by
          rw [List.drop_drop]
          have harg : start + 200 + (snapEnd text 1000 start - start - 200) =
              snapEnd text 1000 start := by omega
          rw [harg]
        rw [hdrop]
        exact List.take_append_drop _ _
      · rw [splitSlices_stop text 1000 200 _ start hs]
        rw [List.drop_eq_nil_of_le (by omega)]
        rfl

/-- Removing the chunking-introduced overlap from the raw slices
reconstructs the text from the loop's start position. -/
theorem splitSlices_removeOverlap (text : List Char) (fuel start : Nat)
    (h : text.length ≤ start + fuel) :
    removeOverlap 200 (splitSlices text 1000 200 fuel start) = text.drop start := by
  cases fuel with
  | zero =>
      rw [splitSlices_stop text 1000 200 0 start (by omega)]
      rw [List.drop_eq_nil_of_le (by omega)]
      rfl
  | succ f =>
      by_cases hs : start < text.length
      · unfold splitSlices
        rw [if_pos hs]
        simp only [removeOverlap]
        have hge := snapEnd_ge text start
        rw [splitSlices_drop_flatten text f (snapEnd text 1000 start - 200) (by omega)]
        have he : snapEnd text 1000 start - 200 + 200 = snapEnd text 1000 start := by omega
        rw [he]
        unfold jsSlice
        have hdrop : text.drop (snapEnd text 1000 start) =
            (text.drop start).drop (snapEnd text 1000 start - start) := by
          rw [List.drop_drop]
          have harg : start + (snapEnd text 1000 start - start) = snapEnd text 1000 start := by
            omega
          rw [harg]
        rw [hdrop]
        exact List.take_append_drop _ _
      · rw [splitSlices_stop text 1000 200 _ start hs]
        rw [List.drop_eq_nil_of_le (by omega)]
        rfl

/-- When no raw slice starts or ends with whitespace, the per-chunk trim and
the empty-chunk filter are the identity, so `splitIntoChunks` returns the
raw slices themselves. -/
theorem splitIntoChunks_eq_slices (text : List Char)
    (htrim : ∀ c ∈ splitSlices text 1000 200 (text.length + 1) 0, jsTrim c = c) :
    splitIntoChunks text 1000 200 = splitSlices text 1000 200 (text.length + 1) 0 := by
  unfold splitIntoChunks
  rw [List.map_congr_left htrim]
  rw [List.map_id']
  rw [List.filter_eq_self.mpr]
  intro c hc
  have := splitSlices_ne_nil text _ _ c hc
  simp [List.isEmpty_iff, this]

/-- C2 (amended): chunk round trip.  On the upload path the concatenation
of the chunks equals the input text exactly, for every text.  On the
offline bulk-ingestion path (`maxChunkSize = 1000`, `overlap = 200`,
sentence snapping) the concatenation after removing the 200-character
overlap of every chunk after the first reproduces the text — provided no
raw slice starts or ends with whitespace (the per-chunk `trim` deletes such
boundary whitespace, which is unrecoverable; see the counterexample). -/
theorem chunk_round_trip (uploadText offlineText : List Char)
    (htrim : ∀ c ∈ splitSlices offlineText 1000 200 (offlineText.length + 1) 0,
      jsTrim c = c) :
    (uploadChunks uploadText).flatten = uploadText ∧
    removeOverlap 200 (splitIntoChunks offlineText 1000 200) = offlineText := by
  constructor
  · exact uploadChunksGo_flatten uploadText.length uploadText (Nat.le_refl _)
  · rw [splitIntoChunks_eq_slices offlineText htrim]
    have := splitSlices_removeOverlap offlineText (offlineText.length + 1) 0 (by omega)
    simpa using this

/-- Closed witness for C2 (amended) at concrete texts. -/
theorem chunk_round_trip_witness :
    (uploadChunks (String.toList "hello")).flatten = String.toList "hello" ∧
    removeOverlap 200 (splitIntoChunks (String.toList "abc") 1000 200) =
      String.toList "abc" :=
  chunk_round_trip (String.toList "hello") (String.toList "abc") (by decide)

set_option maxRecDepth 1000000 in
/-- Counterexample for C2 as stated: on the offline path the round trip can
fail even on a normalized text.  `cexC2` (999 `a`s, a space, two `b`s) is a
fixed point of the normalisation, yet the first slice `[0, 1000)` ends with
the space at position 999, which `trim` deletes; concatenation after
overlap removal yields 1001 characters instead of 1002 — the space is lost. -/
theorem chunk_round_trip_cex :
    removeOverlap 200 (splitIntoChunks cexC2 1000 200) ≠ cexC2 ∧
    normalizeText cexC2 = cexC2 := by
  constructor
  · decide
  · decide

end TmeTax
